import Mathlib

/-!
Verification of the rigid-body-node dynamics core (RigidBodyNode.cpp).

The spatial algebra is embedded over the rationals: a spatial vector is a
function on the index type S6 (three angular slots followed by three linear
slots) and a spatial matrix is a 6 by 6 matrix over that index type. Each
member function of the source is translated to a Lean definition of the same
name; the per-node functions take the cache entries they read as arguments
and return the entries they write, and the tree-level traversals wire the
per-node functions together in the traversal order required by the realize
pipeline. The quaternion routines, which divide by a square root, are
embedded over the reals.
-/

/-- Index type of a spatial (6-component) quantity: angular part first,
linear part second, as in the source spatial algebra kernel. -/
abbrev S6 := Fin 3 ⊕ Fin 3

abbrev V3 := Fin 3 → ℚ

abbrev M33 := Matrix (Fin 3) (Fin 3) ℚ

abbrev SpatialVec := S6 → ℚ

abbrev SpatialMat := Matrix S6 S6 ℚ

/-- Build a spatial vector from its angular and linear parts. -/
def spv (a l : V3) : SpatialVec := Sum.elim a l

/-- Angular part of a spatial vector (first three slots). -/
def angOf (v : SpatialVec) : V3 := fun k => v (Sum.inl k)

/-- Linear part of a spatial vector (last three slots). -/
def linOf (v : SpatialVec) : V3 := fun k => v (Sum.inr k)

/-- The skew-symmetric cross-product matrix of a 3-vector
(crossMat in the source spatial algebra kernel). -/
def crossMat (v : V3) : M33 :=
  !![0, -v 2, v 1;
     v 2, 0, -v 0;
     -v 1, v 0, 0]

/-- Cross product of 3-vectors (the percent operator of the source kernel). -/
def cross (a b : V3) : V3 := (crossMat a).mulVec b

/-- The Phi shift operator built from the parent-to-child offset, used to
shift spatial forces child-to-parent; its transpose shifts velocities
parent-to-child (PhiMatrix in the source kernel). -/
def PhiMatrix (l : V3) : SpatialMat :=
  Matrix.fromBlocks 1 (crossMat l) 0 1

/-- A rigid transform: rotation matrix and translation vector. -/
structure Transform where
  R : M33
  T : V3

/-- Fixed mass properties of a body, expressed in the body frame. -/
structure MassProperties where
  mass : ℚ
  COM_B : V3
  inertia_OB_B : M33

/-- Modelled from the spec: InertiaMat::changeAxes of the external spatial
algebra kernel (not part of src), which re-expresses an inertia matrix in
rotated axes; changeAxes R gives the congruence transform by R. -/
def changeAxes (I R : M33) : M33 := R.transpose * I * R

/-- Result of the joint-independent position kinematics of one node:
the entries this function writes into the configuration cache. -/
structure JointIndependentKinematicsPosOut where
  phi : SpatialMat
  inertia_OB_G : M33
  CB_G : V3
  COM_G : V3
  Mk : SpatialMat

namespace RigidBodyNode

/-- RigidBodyNode::calcJointIndependentKinematicsPos, translated from the
source: re-express the parent-to-body shift vector in ground, build Phi,
rotate the body inertia into ground axes, compute the mass center in ground,
and assemble the spatial inertia Mk from the rotated inertia tensor, the
skew-symmetric mass-offset block and mass times identity. -/
def calcJointIndependentKinematicsPos
    (mp : MassProperties) (X_GP X_PB X_GB : Transform) :
    JointIndependentKinematicsPosOut :=
  let T_PB_G := X_GP.R.mulVec X_PB.T
  let phi := PhiMatrix T_PB_G
  let inertia_OB_G := changeAxes mp.inertia_OB_B X_GB.R.transpose
  let CB_G := X_GB.R.mulVec mp.COM_B
  let COM_G := X_GB.T + CB_G
  let offDiag := mp.mass • crossMat CB_G
  { phi := phi
    inertia_OB_G := inertia_OB_G
    CB_G := CB_G
    COM_G := COM_G
    Mk := Matrix.fromBlocks inertia_OB_G offDiag (-offDiag) (mp.mass • (1 : M33)) }

end RigidBodyNode

/-- The joint-type enumerators of JointSpecification. -/
inductive JointType where
  | ThisIsGround
  | Torsion
  | Universal
  | Orientation
  | Cartesian
  | FreeLine
  | Free
  | Sliding
  | Cylinder
  | Planar
  | Gimbal
  | Weld
deriving DecidableEq

/-- A constructed node as far as slot accounting is concerned: its degree of
freedom count, its maximum generalized-coordinate count, its modeled
coordinate count as a function of the use-Euler-angles modeling choice, and
the three slot indices captured from the running counters at construction. -/
structure RBNodeSlots where
  dof : ℕ
  maxNQ : ℕ
  nq : Bool → ℕ
  uIndex : ℕ
  uSqIndex : ℕ
  qIndex : ℕ

/-- The RigidBodyNodeSpec constructor followed by updateSlots: capture the
three running counters as the node indices, then advance them by dof,
dof squared, and maxNQ. -/
def mkNodeSpec (dof maxNQ : ℕ) (nq : Bool → ℕ)
    (nextUSlot nextUSqSlot nextQSlot : ℕ) : RBNodeSlots × ℕ × ℕ × ℕ :=
  ({ dof := dof, maxNQ := maxNQ, nq := nq,
     uIndex := nextUSlot, uSqIndex := nextUSqSlot, qIndex := nextQSlot },
   nextUSlot + dof, nextUSqSlot + dof * dof, nextQSlot + maxNQ)

namespace RigidBodyNode

/-- RigidBodyNode::create, the node factory: dispatch on the joint type to
the variant node class, whose constructor captures the slot counters and
whose updateSlots advances them. A reversed joint or an unimplemented
enumerator is a construction-time fatal condition, modelled as none. The
dof and maxNQ values are those of the variant classes: Ground 0/0 (the
ground body takes no slots; its captured indices are modelled from the
spec, the node base-class header not being part of src), Torsion 1/1,
Universal 2/2, Orientation 3/4 (getNQ 3 with Euler angles, else 4),
Cartesian 3/3, FreeLine 5/5, Free 6/7 (getNQ 6 with Euler angles, else 7),
Sliding 1/1. -/
def create (jt : JointType) (isReversed : Bool)
    (nextUSlot nextUSqSlot nextQSlot : ℕ) : Option (RBNodeSlots × ℕ × ℕ × ℕ) :=
  if isReversed then none
  else
    match jt with
    | JointType.ThisIsGround =>
        some ({ dof := 0, maxNQ := 0, nq := fun _ => 0,
                uIndex := nextUSlot, uSqIndex := nextUSqSlot, qIndex := nextQSlot },
              nextUSlot, nextUSqSlot, nextQSlot)
    | JointType.Torsion => some (mkNodeSpec 1 1 (fun _ => 1) nextUSlot nextUSqSlot nextQSlot)
    | JointType.Universal => some (mkNodeSpec 2 2 (fun _ => 2) nextUSlot nextUSqSlot nextQSlot)
    | JointType.Orientation =>
        some (mkNodeSpec 3 4 (fun useEuler => if useEuler then 3 else 4)
          nextUSlot nextUSqSlot nextQSlot)
    | JointType.Cartesian => some (mkNodeSpec 3 3 (fun _ => 3) nextUSlot nextUSqSlot nextQSlot)
    | JointType.FreeLine => some (mkNodeSpec 5 5 (fun _ => 5) nextUSlot nextUSqSlot nextQSlot)
    | JointType.Free =>
        some (mkNodeSpec 6 7 (fun useEuler => if useEuler then 6 else 7)
          nextUSlot nextUSqSlot nextQSlot)
    | JointType.Sliding => some (mkNodeSpec 1 1 (fun _ => 1) nextUSlot nextUSqSlot nextQSlot)
    | _ => none

end RigidBodyNode

/-- Entries written into the dynamics cache by the joint-independent
velocity-dependent dynamics calculation of one node. -/
structure JointIndependentDynamicsVelOut where
  gyroscopicForce : SpatialVec
  coriolisAcceleration : SpatialVec
  centrifugalForces : SpatialVec

namespace RigidBodyNode

/-- RigidBodyNode::calcJointIndependentDynamicsVel, translated from the
source: for the ground node (nodeNum 0) every output is zero; otherwise the
gyroscopic force is built from the spatial angular velocity, the ground
inertia and the mass-center offset, the coriolis acceleration combines the
parent angular velocity with the relative linear velocity difference and the
own angular velocity applied blockwise to the cross-joint velocity V_PB_G,
and the centrifugal force is the articulated body inertia P applied to the
coriolis acceleration plus the gyroscopic force. -/
def calcJointIndependentDynamicsVel
    (nodeNum : ℕ) (mass : ℚ) (inertia_OB_G : M33) (CB_G : V3)
    (V_GB parentV_GB V_PB_G : SpatialVec) (P : SpatialMat) :
    JointIndependentDynamicsVelOut :=
  if nodeNum = 0 then
    { gyroscopicForce := spv 0 0
      coriolisAcceleration := spv 0 0
      centrifugalForces := spv 0 0 }
  else
    let omega := angOf V_GB
    let vel := linOf V_GB
    let gyroscopicForce :=
      spv (cross omega (inertia_OB_G.mulVec omega))
          (mass • cross omega (cross omega CB_G))
    let pOmega := angOf parentV_GB
    let pVel := linOf parentV_GB
    let coriolisAcceleration :=
      spv 0 (cross pOmega (vel - pVel))
        + spv (cross omega (angOf V_PB_G)) (cross omega (linOf V_PB_G))
    { gyroscopicForce := gyroscopicForce
      coriolisAcceleration := coriolisAcceleration
      centrifugalForces := P.mulVec coriolisAcceleration + gyroscopicForce }

end RigidBodyNode

namespace RBGroundBody

/-- RBGroundBody::getDOF, from the source: the ground body has no degrees
of freedom. -/
def getDOF : ℕ := 0

/-- RBGroundBody::calcZ, translated from the source: the body is empty, so
the reaction cache is returned unchanged. -/
def calcZ {RC : Type} (spatialForce : SpatialVec) (rc : RC) : RC := rc

/-- RBGroundBody::calcAccel, translated from the source: the body is empty,
so the reaction cache and the udot and qdotdot outputs are all returned
unchanged. -/
def calcAccel {RC U Q : Type} (rc : RC) (udot : U) (qdotdot : Q) : RC × U × Q :=
  (rc, udot, qdotdot)

/-- RBGroundBody::calcUDotPass2Outward, translated from the source: write
the zero spatial vector into the ground entry of the acceleration array and
leave the udot array unchanged. -/
def calcUDotPass2Outward {U : Type} (allA_GB : ℕ → SpatialVec) (allUDot : U) :
    (ℕ → SpatialVec) × U :=
  (Function.update allA_GB 0 (spv 0 0), allUDot)

/-- RBGroundBody::calcUDotPass1Inward, translated from the source: the
ground entry of the z array receives the negated ground body force and the
ground Gepsilon entry receives zero. -/
def calcUDotPass1Inward (bodyForce : SpatialVec) : SpatialVec × SpatialVec :=
  (-bodyForce, spv 0 0)

end RBGroundBody

/-- The cache entries of one child read during a tip-to-base reduction:
the child Phi, the child z and the child Gepsilon. -/
structure ChildZ where
  phi : SpatialMat
  z : SpatialVec
  Gepsilon : SpatialVec

/-- Entries written into the reaction cache by calcZ for one node. -/
structure CalcZOut (d : ℕ) where
  z : SpatialVec
  epsilon : Fin d → ℚ
  nu : Fin d → ℚ
  Gepsilon : SpatialVec

namespace RigidBodyNodeSpec

/-- RigidBodyNodeSpec::calcZ, translated from the source: z starts at the
centrifugal force minus the applied spatial force and accumulates, child by
child in order, the child Phi applied to the sum of the child z and the
child Gepsilon; then epsilon is the applied joint force minus H applied to
z, nu is DI applied to epsilon, and Gepsilon is G applied to epsilon. -/
def calcZ {d : ℕ} (centrifugalForces : SpatialVec) (H : Matrix (Fin d) S6 ℚ)
    (DI : Matrix (Fin d) (Fin d) ℚ) (G : Matrix S6 (Fin d) ℚ)
    (appliedJointForce : Fin d → ℚ) (spatialForce : SpatialVec)
    (childData : List ChildZ) : CalcZOut d :=
  let z := childData.foldl (fun acc c => acc + c.phi.mulVec (c.z + c.Gepsilon))
    (centrifugalForces - spatialForce)
  let epsilon := appliedJointForce - H.mulVec z
  { z := z
    epsilon := epsilon
    nu := DI.mulVec epsilon
    Gepsilon := G.mulVec epsilon }

end RigidBodyNodeSpec

namespace RigidBodyNodeSpec

/-- RigidBodyNodeSpec::calcUDotPass2Outward for one node, translated from
the source: read the parent entry of the caller-supplied acceleration
array unless the parent is the ground node (node number zero), in which
case the shifted parent acceleration is taken to be zero without reading
the array; udot is DI applied to this-node epsilon minus the transpose of G
applied to the shifted parent acceleration, and the node acceleration entry
is the shifted parent acceleration plus the transpose of H applied to udot
plus the coriolis acceleration. -/
def calcUDotPass2Outward {d : ℕ} (H : Matrix (Fin d) S6 ℚ)
    (DI : Matrix (Fin d) (Fin d) ℚ) (G : Matrix S6 (Fin d) ℚ)
    (phi : SpatialMat) (coriolisAcceleration : SpatialVec)
    (epsilon : Fin d → ℚ) (parentNum : ℕ) (allA_GB : ℕ → SpatialVec) :
    (Fin d → ℚ) × SpatialVec :=
  let A_GP := if parentNum = 0 then spv 0 0
    else phi.transpose.mulVec (allA_GB parentNum)
  let udot := DI.mulVec epsilon - G.transpose.mulVec A_GP
  (udot, A_GP + H.transpose.mulVec udot + coriolisAcceleration)

end RigidBodyNodeSpec

/-- The dynamics-cache entries of one child read by the articulated-body
inertia recursion: the child tauBar term, the child articulated inertia P
and the child Phi. -/
structure ABIChild where
  phi : SpatialMat
  tauBar : SpatialMat
  P : SpatialMat

/-- Entries written into the dynamics cache by the articulated-body inertia
recursion for one node. -/
structure ABIOut (d : ℕ) where
  P : SpatialMat
  D : Matrix (Fin d) (Fin d) ℚ
  DI : Matrix (Fin d) (Fin d) ℚ
  G : Matrix S6 (Fin d) ℚ
  tauBar : SpatialMat
  Psi : SpatialMat

/-- Modelled from the spec: the invert method of the external small-matrix
kernel (not part of src), whose failure on a singular or ill-conditioned D
is fatal and aborts the realization; modelled as none exactly when the
determinant vanishes, otherwise as the inverse computed from the adjugate. -/
def matInvert {d : ℕ} (M : Matrix (Fin d) (Fin d) ℚ) :
    Option (Matrix (Fin d) (Fin d) ℚ) :=
  if M.det = 0 then none else some (M.det⁻¹ • M.adjugate)

namespace RigidBodyNodeSpec

/-- RigidBodyNodeSpec::calcArticulatedBodyInertiasInward, translated from
the source: P starts at the spatial inertia Mk and accumulates, child by
child in order, the child Phi times the child tauBar times the child P
times the transpose of the child Phi; then with PHt the product P times the
transpose of H, D is H times PHt, DI is the inverse of D (fatal if D is
singular), G is PHt times DI, tauBar is the identity minus G times H, and
Psi is Phi times tauBar. -/
def calcArticulatedBodyInertiasInward {d : ℕ}
    (Mk : SpatialMat) (H : Matrix (Fin d) S6 ℚ) (phi : SpatialMat)
    (childData : List ABIChild) : Option (ABIOut d) :=
  let P := childData.foldl
    (fun acc c => acc + c.phi * (c.tauBar * c.P) * c.phi.transpose) Mk
  let PHt : Matrix S6 (Fin d) ℚ := P * H.transpose
  let D := H * PHt
  (matInvert D).map fun DI =>
    let G := PHt * DI
    let tauBar := (1 : SpatialMat) - G * H
    { P := P, D := D, DI := DI, G := G, tauBar := tauBar, Psi := phi * tauBar }

end RigidBodyNodeSpec

/-- A concrete one-dof joint transition matrix used to exercise the
articulated-body recursion: the single generalized speed maps to the third
angular slot. -/
def abiH1 : Matrix (Fin 1) S6 ℚ :=
  Matrix.of fun _ j => if j = Sum.inl 2 then 1 else 0

/-- The factored diagonal D arising from spatial inertia one and abiH1. -/
def abiD1 : Matrix (Fin 1) (Fin 1) ℚ := abiH1 * ((1 : SpatialMat) * abiH1.transpose)

def abiDI1 : Matrix (Fin 1) (Fin 1) ℚ := abiD1.det⁻¹ • abiD1.adjugate

def abiG1 : Matrix S6 (Fin 1) ℚ := (1 : SpatialMat) * abiH1.transpose * abiDI1

def abiTauBar1 : SpatialMat := 1 - abiG1 * abiH1

def abiOut1 : ABIOut 1 :=
  { P := 1, D := abiD1, DI := abiDI1, G := abiG1,
    tauBar := abiTauBar1, Psi := 1 * abiTauBar1 }

/-- The Euclidean norm of a four-component quaternion, over the reals
(Vec4::norm of the external kernel, modelled from the spec). -/
noncomputable def quatNorm (q : Fin 4 → ℝ) : ℝ := Real.sqrt (∑ i, q i ^ 2)

/-- Division of a quaternion by its own norm, as performed in place by the
quaternion branch of enforceQuaternionConstraints. -/
noncomputable def quatNormalize (q : Fin 4 → ℝ) : Fin 4 → ℝ := fun i => q i / quatNorm q

namespace RBNodeRotate3

/-- RBNodeRotate3::enforceQuaternionConstraints, translated from the
source: in Euler-angle mode return the coordinates unchanged and report no
change; otherwise replace the quaternion by itself divided by its norm and
report that a change occurred. -/
noncomputable def enforceQuaternionConstraints (useEulerAngles : Bool) (q : Fin 4 → ℝ) :
    (Fin 4 → ℝ) × Bool :=
  if useEulerAngles then (q, false)
  else (quatNormalize q, true)

end RBNodeRotate3

namespace RBNodeTranslateRotate3

/-- RBNodeTranslateRotate3::enforceQuaternionConstraints, translated from
the source: the free joint carries a quaternion and a translation; in
Euler-angle mode nothing changes, otherwise the four quaternion
coordinates are renormalized in place and the translation coordinates are
untouched. -/
noncomputable def enforceQuaternionConstraints (useEulerAngles : Bool)
    (q : (Fin 4 → ℝ) × (Fin 3 → ℝ)) : ((Fin 4 → ℝ) × (Fin 3 → ℝ)) × Bool :=
  if useEulerAngles then (q, false)
  else ((quatNormalize q.1, q.2), true)

end RBNodeTranslateRotate3

namespace RigidBodyNodeSpec

/-- The base-class enforceQuaternionConstraints of non-ball joints,
translated from the source: no change, reported as false. -/
def enforceQuaternionConstraints {Q : Type} (q : Q) : Q × Bool := (q, false)

end RigidBodyNodeSpec

namespace RBGroundBody

/-- RBGroundBody::enforceQuaternionConstraints, translated from the source:
no change, reported as false. -/
def enforceQuaternionConstraints {Q : Type} (q : Q) : Q × Bool := (q, false)

end RBGroundBody

/-- A multibody tree with its Configuration and Dynamics stages realized:
node zero is the ground, every other node has a parent strictly closer to
the base, and each node carries the configuration-cache and dynamics-cache
entries (Phi, H, DI, G, coriolis acceleration, centrifugal force) and its
applied joint force, exactly the entries the reaction and acceleration
recursions read. -/
structure RBTree (n : ℕ) where
  parent : Fin (n+1) → Fin (n+1)
  parent_lt : ∀ i : Fin (n+1), i ≠ 0 → parent i < i
  dof : Fin (n+1) → ℕ
  phi : Fin (n+1) → SpatialMat
  H : (i : Fin (n+1)) → Matrix (Fin (dof i)) S6 ℚ
  DI : (i : Fin (n+1)) → Matrix (Fin (dof i)) (Fin (dof i)) ℚ
  G : (i : Fin (n+1)) → Matrix S6 (Fin (dof i)) ℚ
  coriolisAcceleration : Fin (n+1) → SpatialVec
  centrifugalForces : Fin (n+1) → SpatialVec
  appliedJointForce : (i : Fin (n+1)) → Fin (dof i) → ℚ

/-- The children of node i: the non-ground nodes whose parent is i, in
node-number order, matching the children vector of the source tree. -/
def childrenOf {n : ℕ} (t : RBTree n) (i : Fin (n+1)) : List (Fin (n+1)) :=
  (List.finRange (n+1)).filter fun j => decide (t.parent j = i ∧ j ≠ 0)

namespace RigidBodyNodeSpec

/-- RigidBodyNodeSpec::calcAccel for one node, translated from the source:
shift the parent acceleration across the transpose of Phi, set udot to nu
minus the transpose of G applied to the shifted parent acceleration, set
the node spatial acceleration to the shifted parent acceleration plus the
transpose of H applied to udot plus the coriolis acceleration, and convert
udot to qdotdot through the joint-specific calcQDotDot. -/
def calcAccel {d nqd : ℕ} (phi : SpatialMat) (H : Matrix (Fin d) S6 ℚ)
    (G : Matrix S6 (Fin d) ℚ) (coriolisAcceleration : SpatialVec)
    (nu : Fin d → ℚ) (parentA_GB : SpatialVec)
    (calcQDotDot : (Fin d → ℚ) → Fin nqd → ℚ) :
    (Fin d → ℚ) × SpatialVec × (Fin nqd → ℚ) :=
  let alphap := phi.transpose.mulVec parentA_GB
  let udot := nu - G.transpose.mulVec alphap
  (udot, alphap + H.transpose.mulVec udot + coriolisAcceleration, calcQDotDot udot)

end RigidBodyNodeSpec

/-- Entries written into the caller-supplied arrays by calcUDotPass1Inward
for one node. -/
structure Pass1Out (d : ℕ) where
  z : SpatialVec
  Gepsilon : SpatialVec
  epsilon : Fin d → ℚ

namespace RigidBodyNodeSpec

/-- RigidBodyNodeSpec::calcUDotPass1Inward for one node, translated from
the source: like calcZ but reading and writing caller-supplied arrays and
not computing nu; z starts at the centrifugal force minus the body force
and accumulates each child contribution, epsilon is the joint force minus H
applied to z, and Gepsilon is G applied to epsilon. -/
def calcUDotPass1Inward {d : ℕ} (centrifugalForces : SpatialVec)
    (H : Matrix (Fin d) S6 ℚ) (G : Matrix S6 (Fin d) ℚ)
    (myJointForce : Fin d → ℚ) (myBodyForce : SpatialVec)
    (childData : List ChildZ) : Pass1Out d :=
  let z := childData.foldl (fun acc c => acc + c.phi.mulVec (c.z + c.Gepsilon))
    (centrifugalForces - myBodyForce)
  let epsilon := myJointForce - H.mulVec z
  { z := z
    Gepsilon := G.mulVec epsilon
    epsilon := epsilon }

end RigidBodyNodeSpec

/-- The tip-to-base reaction pass over the whole tree: every node receives
the reads of its children from the recursion below it. The ground entry is
never consulted by any other node (the ground body is not a child of any
node) and the ground calcZ of the source writes nothing. -/
def treeCalcZ {n : ℕ} (t : RBTree n) (spatialForces : Fin (n+1) → SpatialVec) :
    (i : Fin (n+1)) → CalcZOut (t.dof i) :=
  fun i =>
    RigidBodyNodeSpec.calcZ (t.centrifugalForces i) (t.H i) (t.DI i) (t.G i)
      (t.appliedJointForce i) (spatialForces i)
      ((childrenOf t i).attach.map fun j =>
        { phi := t.phi j.1
          z := (treeCalcZ t spatialForces j.1).z
          Gepsilon := (treeCalcZ t spatialForces j.1).Gepsilon })
  termination_by i => n + 1 - i.val
  decreasing_by
    all_goals
      refine Nat.sub_lt_sub_left i.isLt ?_
      have h2 := List.of_mem_filter j.2
      simp only [decide_eq_true_eq] at h2
      have h3 := t.parent_lt j.1 h2.2
      rw [h2.1] at h3
      exact h3

/-- The base-to-tip acceleration pass over the whole tree using the
reaction cache written by treeCalcZ; the ground spatial acceleration, the
base of the recursion, is the zero spatial vector (the initialization of
the ground entry is modelled from the spec, the tree orchestrator not
being part of src), and each non-ground node applies calcAccel to the
already-computed acceleration of its parent. -/
def treeCalcAccel {n : ℕ} (t : RBTree n) (spatialForces : Fin (n+1) → SpatialVec) :
    (i : Fin (n+1)) → (Fin (t.dof i) → ℚ) × SpatialVec :=
  fun i =>
    if h : i = 0 then (0, 0)
    else
      let r := RigidBodyNodeSpec.calcAccel (t.phi i) (t.H i) (t.G i)
        (t.coriolisAcceleration i) ((treeCalcZ t spatialForces i).nu)
        ((treeCalcAccel t spatialForces (t.parent i)).2) (fun udot => udot)
      (r.1, r.2.1)
  termination_by i => i.val
  decreasing_by exact t.parent_lt i h

/-- The tip-to-base array pass over the whole tree: the ground node writes
the negated ground body force and a zero Gepsilon into its array entries
(its epsilon entry is an untouched temporary, modelled as zero), and every
other node applies calcUDotPass1Inward to the entries of its children. -/
def treeCalcUDotPass1 {n : ℕ} (t : RBTree n)
    (jointForces : (i : Fin (n+1)) → Fin (t.dof i) → ℚ)
    (bodyForces : Fin (n+1) → SpatialVec) :
    (i : Fin (n+1)) → Pass1Out (t.dof i) :=
  fun i =>
    if i = 0 then
      { z := (RBGroundBody.calcUDotPass1Inward (bodyForces i)).1
        Gepsilon := (RBGroundBody.calcUDotPass1Inward (bodyForces i)).2
        epsilon := 0 }
    else
      RigidBodyNodeSpec.calcUDotPass1Inward (t.centrifugalForces i) (t.H i) (t.G i)
        (jointForces i) (bodyForces i)
        ((childrenOf t i).attach.map fun j =>
          { phi := t.phi j.1
            z := (treeCalcUDotPass1 t jointForces bodyForces j.1).z
            Gepsilon := (treeCalcUDotPass1 t jointForces bodyForces j.1).Gepsilon })
  termination_by i => n + 1 - i.val
  decreasing_by
    all_goals
      refine Nat.sub_lt_sub_left i.isLt ?_
      have h2 := List.of_mem_filter j.2
      simp only [decide_eq_true_eq] at h2
      have h3 := t.parent_lt j.1 h2.2
      rw [h2.1] at h3
      exact h3

/-- The base-to-tip array pass over the whole tree: the ground node writes
the zero spatial vector into its acceleration entry (its udot entry is an
untouched temporary, modelled as zero), and every other node applies
calcUDotPass2Outward, reading the acceleration array only at the parent
entry, which the recursion supplies. -/
def treeCalcUDotPass2 {n : ℕ} (t : RBTree n)
    (allEpsilon : (i : Fin (n+1)) → Fin (t.dof i) → ℚ) :
    (i : Fin (n+1)) → (Fin (t.dof i) → ℚ) × SpatialVec :=
  fun i =>
    if h : i = 0 then (0, spv 0 0)
    else
      RigidBodyNodeSpec.calcUDotPass2Outward (t.H i) (t.DI i) (t.G i) (t.phi i)
        (t.coriolisAcceleration i) (allEpsilon i) (t.parent i).val
        (fun _ => (treeCalcUDotPass2 t allEpsilon (t.parent i)).2)
  termination_by i => i.val
  decreasing_by exact t.parent_lt i h

theorem crossMat_transpose (v : V3) : (crossMat v).transpose = -crossMat v := by
  ext i j
  fin_cases i <;> fin_cases j <;>
    simp [crossMat, Matrix.transpose_apply]

theorem foldl_add_map_sum {α β : Type} [AddCommMonoid β] (g : α → β) (l : List α) (init : β) :
    l.foldl (fun acc c => acc + g c) init = init + (l.map g).sum := by
  induction l generalizing init with
  | nil => simp
  | cons x xs ih => simp [ih, add_assoc]

/-- C8: after position kinematics, the spatial inertia Mk has upper-right
3 by 3 block equal to mass times crossMat of the ground-frame mass-center
offset CB_G, the lower-left block is the negation of that block, the block
is skew-symmetric (its transpose is its negation), and consequently the
lower-left block is the transpose of the upper-right block, for every input
of every realizeConfiguration. -/
theorem Mk_offDiagonal_skew (mp : MassProperties) (X_GP X_PB X_GB : Transform) :
    let out := RigidBodyNode.calcJointIndependentKinematicsPos mp X_GP X_PB X_GB
    out.Mk.toBlocks₁₂ = mp.mass • crossMat out.CB_G ∧
    out.Mk.toBlocks₂₁ = -out.Mk.toBlocks₁₂ ∧
    out.Mk.toBlocks₁₂.transpose = -out.Mk.toBlocks₁₂ ∧
    out.Mk.toBlocks₂₁ = out.Mk.toBlocks₁₂.transpose := by
  refine ⟨?_, ?_, ?_, ?_⟩ <;>
    simp [RigidBodyNode.calcJointIndependentKinematicsPos,
      Matrix.toBlocks_fromBlocks₁₂, Matrix.toBlocks_fromBlocks₂₁,
      Matrix.transpose_smul, crossMat_transpose]

/-- C9: the factory assigns each joint variant its dof and maximum
coordinate count -- Ground 0/0, Cartesian 3/3, Sliding 1/1, Torsion 1/1,
Universal 2/2, Orientation (ball) 3/4 with 3 coordinates in Euler mode and
4 in quaternion mode, FreeLine (diatom) 5/5, Free 6/7 with 6 in Euler mode
and 7 in quaternion mode -- and every construction captures the three
running slot counters as the node u, uSq and q indices and advances them by
exactly dof, dof squared and maxNQ. -/
theorem create_slot_table :
    (∀ u s q, RigidBodyNode.create JointType.ThisIsGround false u s q =
      some (⟨0, 0, fun _ => 0, u, s, q⟩, u, s, q)) ∧
    (∀ u s q, RigidBodyNode.create JointType.Cartesian false u s q =
      some (⟨3, 3, fun _ => 3, u, s, q⟩, u + 3, s + 9, q + 3)) ∧
    (∀ u s q, RigidBodyNode.create JointType.Sliding false u s q =
      some (⟨1, 1, fun _ => 1, u, s, q⟩, u + 1, s + 1, q + 1)) ∧
    (∀ u s q, RigidBodyNode.create JointType.Torsion false u s q =
      some (⟨1, 1, fun _ => 1, u, s, q⟩, u + 1, s + 1, q + 1)) ∧
    (∀ u s q, RigidBodyNode.create JointType.Universal false u s q =
      some (⟨2, 2, fun _ => 2, u, s, q⟩, u + 2, s + 4, q + 2)) ∧
    (∀ u s q, RigidBodyNode.create JointType.Orientation false u s q =
      some (⟨3, 4, fun useEuler => if useEuler then 3 else 4, u, s, q⟩, u + 3, s + 9, q + 4)) ∧
    (∀ u s q, RigidBodyNode.create JointType.FreeLine false u s q =
      some (⟨5, 5, fun _ => 5, u, s, q⟩, u + 5, s + 25, q + 5)) ∧
    (∀ u s q, RigidBodyNode.create JointType.Free false u s q =
      some (⟨6, 7, fun useEuler => if useEuler then 6 else 7, u, s, q⟩, u + 6, s + 36, q + 7)) ∧
    (∀ jt u s q node u2 s2 q2,
      RigidBodyNode.create jt false u s q = some (node, u2, s2, q2) →
      node.uIndex = u ∧ node.uSqIndex = s ∧ node.qIndex = q ∧
      u2 = u + node.dof ∧ s2 = s + node.dof * node.dof ∧ q2 = q + node.maxNQ) := by
  refine ⟨fun u s q => rfl, fun u s q => rfl, fun u s q => rfl, fun u s q => rfl,
    fun u s q => rfl, fun u s q => rfl, fun u s q => rfl, fun u s q => rfl, ?_⟩
  intro jt u s q node u2 s2 q2 h
  cases jt <;>
    simp [RigidBodyNode.create, mkNodeSpec] at h <;>
    obtain ⟨rfl, rfl, rfl, rfl⟩ := h <;>
    simp

/-- C9 witness companion: the slot-accounting clause applied to a concrete
construction of a Torsion node from counters 2, 4, 6. -/
theorem create_slot_table_witness :
    RigidBodyNode.create JointType.Torsion false 2 4 6 =
      some (⟨1, 1, fun _ => 1, 2, 4, 6⟩, 3, 5, 7) ∧
    (⟨1, 1, fun _ => 1, 2, 4, 6⟩ : RBNodeSlots).uIndex = 2 := by
  have h : RigidBodyNode.create JointType.Torsion false 2 4 6 =
      some (⟨1, 1, fun _ => 1, 2, 4, 6⟩, 3, 5, 7) := rfl
  exact ⟨h, (create_slot_table.2.2.2.2.2.2.2.2 JointType.Torsion 2 4 6 _ 3 5 7 h).1⟩

/-- C5: for every node other than ground, the gyroscopic force is the
spatial vector of the gyroscopic moment (omega cross the inertia times
omega) and the mass-scaled double cross of omega with the ground-frame
mass-center offset; the coriolis acceleration adds to the zero-angular-part
vector built from the parent angular velocity crossed with the linear
velocity difference the blockwise cross of the own angular velocity with
the cross-joint relative velocity V_PB_G; and the centrifugal force is the
articulated body inertia applied to the coriolis acceleration plus the
gyroscopic force. -/
theorem calcJointIndependentDynamicsVel_spec
    (nodeNum : ℕ) (mass : ℚ) (inertia_OB_G : M33) (CB_G : V3)
    (V_GB parentV_GB V_PB_G : SpatialVec) (P : SpatialMat)
    (h : nodeNum ≠ 0) :
    RigidBodyNode.calcJointIndependentDynamicsVel nodeNum mass inertia_OB_G CB_G
        V_GB parentV_GB V_PB_G P =
      { gyroscopicForce :=
          spv (cross (angOf V_GB) (inertia_OB_G.mulVec (angOf V_GB)))
              (mass • cross (angOf V_GB) (cross (angOf V_GB) CB_G))
        coriolisAcceleration :=
          spv 0 (cross (angOf parentV_GB) (linOf V_GB - linOf parentV_GB))
            + spv (cross (angOf V_GB) (angOf V_PB_G)) (cross (angOf V_GB) (linOf V_PB_G))
        centrifugalForces :=
          P.mulVec
            (spv 0 (cross (angOf parentV_GB) (linOf V_GB - linOf parentV_GB))
              + spv (cross (angOf V_GB) (angOf V_PB_G)) (cross (angOf V_GB) (linOf V_PB_G)))
          + spv (cross (angOf V_GB) (inertia_OB_G.mulVec (angOf V_GB)))
              (mass • cross (angOf V_GB) (cross (angOf V_GB) CB_G)) } := by
  rw [RigidBodyNode.calcJointIndependentDynamicsVel, if_neg h]

/-- C5 witness: the dynamics-vel formulas instantiated at node number one
with all velocity inputs zero. -/
theorem calcJointIndependentDynamicsVel_spec_witness :
    (1 : ℕ) ≠ 0 ∧
    RigidBodyNode.calcJointIndependentDynamicsVel 1 1 1 0 0 0 0 1 =
      { gyroscopicForce :=
          spv (cross (angOf 0) ((1 : M33).mulVec (angOf 0)))
              ((1 : ℚ) • cross (angOf 0) (cross (angOf 0) 0))
        coriolisAcceleration :=
          spv 0 (cross (angOf 0) (linOf 0 - linOf 0))
            + spv (cross (angOf 0) (angOf 0)) (cross (angOf 0) (linOf 0))
        centrifugalForces :=
          (1 : SpatialMat).mulVec
            (spv 0 (cross (angOf 0) (linOf 0 - linOf 0))
              + spv (cross (angOf 0) (angOf 0)) (cross (angOf 0) (linOf 0)))
          + spv (cross (angOf 0) ((1 : M33).mulVec (angOf 0)))
              ((1 : ℚ) • cross (angOf 0) (cross (angOf 0) 0)) } :=
  ⟨by decide, calcJointIndependentDynamicsVel_spec 1 1 1 0 0 0 0 1 (by decide)⟩

/-- C6: every dynamics-stage quantity of the ground node is unconditionally
zero: the gyroscopic force, coriolis acceleration and centrifugal force
computed at node number zero are the zero spatial vector for all inputs,
any joint transition matrix of the zero-dof ground body is the zero matrix,
the ground acceleration entry written by the outward pass is the zero
spatial vector while other entries and the udot array are untouched, and
the empty ground calcAccel leaves every output unchanged. -/
theorem ground_dynamics_quantities_zero :
    (∀ (mass : ℚ) (inertia : M33) (c : V3) (v pv vpb : SpatialVec) (P : SpatialMat),
      RigidBodyNode.calcJointIndependentDynamicsVel 0 mass inertia c v pv vpb P =
        { gyroscopicForce := 0, coriolisAcceleration := 0, centrifugalForces := 0 }) ∧
    (∀ H : Matrix (Fin RBGroundBody.getDOF) S6 ℚ, H = 0) ∧
    (∀ (allA_GB : ℕ → SpatialVec) (allUDot : Fin 0 → ℚ),
      (RBGroundBody.calcUDotPass2Outward allA_GB allUDot).1 0 = 0 ∧
      (∀ k, k ≠ 0 → (RBGroundBody.calcUDotPass2Outward allA_GB allUDot).1 k = allA_GB k) ∧
      (RBGroundBody.calcUDotPass2Outward allA_GB allUDot).2 = allUDot) ∧
    (∀ (rc : SpatialVec) (udot qdotdot : Fin 0 → ℚ),
      RBGroundBody.calcAccel rc udot qdotdot = (rc, udot, qdotdot)) := by
  refine ⟨?_, ?_, ?_, fun rc udot qdotdot => rfl⟩
  · intro mass inertia c v pv vpb P
    have h0 : spv 0 0 = (0 : SpatialVec) := by funext x; cases x <;> rfl
    rw [RigidBodyNode.calcJointIndependentDynamicsVel, if_pos rfl, h0]
  · intro H
    ext i j
    exact absurd i.isLt (Nat.not_lt_zero _)
  · intro allA_GB allUDot
    refine ⟨?_, ?_, rfl⟩
    · show Function.update allA_GB 0 (spv 0 0) 0 = 0
      rw [Function.update_same]
      funext x; cases x <;> rfl
    · intro k hk
      exact Function.update_noteq hk _ _

/-- C2: for every non-ground node, calcZ sets z to the centrifugal force
minus the applied spatial force plus the sum over the children of the child
Phi applied to the child z plus child Gepsilon, sets epsilon to the applied
joint force minus H applied to z, nu to DI applied to epsilon and Gepsilon
to G applied to epsilon; and the ground calcZ writes nothing, returning the
reaction cache unchanged. -/
theorem calcZ_spec {d : ℕ} (centrifugalForces : SpatialVec) (H : Matrix (Fin d) S6 ℚ)
    (DI : Matrix (Fin d) (Fin d) ℚ) (G : Matrix S6 (Fin d) ℚ)
    (appliedJointForce : Fin d → ℚ) (spatialForce : SpatialVec)
    (childData : List ChildZ) :
    (RigidBodyNodeSpec.calcZ centrifugalForces H DI G appliedJointForce
        spatialForce childData).z =
      centrifugalForces - spatialForce
        + (childData.map fun c => c.phi.mulVec (c.z + c.Gepsilon)).sum ∧
    (RigidBodyNodeSpec.calcZ centrifugalForces H DI G appliedJointForce
        spatialForce childData).epsilon =
      appliedJointForce - H.mulVec (RigidBodyNodeSpec.calcZ centrifugalForces H DI G
        appliedJointForce spatialForce childData).z ∧
    (RigidBodyNodeSpec.calcZ centrifugalForces H DI G appliedJointForce
        spatialForce childData).nu =
      DI.mulVec (RigidBodyNodeSpec.calcZ centrifugalForces H DI G
        appliedJointForce spatialForce childData).epsilon ∧
    (RigidBodyNodeSpec.calcZ centrifugalForces H DI G appliedJointForce
        spatialForce childData).Gepsilon =
      G.mulVec (RigidBodyNodeSpec.calcZ centrifugalForces H DI G
        appliedJointForce spatialForce childData).epsilon ∧
    (∀ (rc : SpatialVec × (Fin d → ℚ)), RBGroundBody.calcZ spatialForce rc = rc) := by
  refine ⟨?_, rfl, rfl, rfl, fun rc => rfl⟩
  exact foldl_add_map_sum _ childData _

/-- C10: for a node whose parent is the ground node, calcUDotPass2Outward
takes the shifted parent acceleration to be the zero spatial vector and
never reads the acceleration array, so its udot and acceleration outputs
are identical for any two contents of the array, in particular for any
contents of the ground entry; udot reduces to DI applied to epsilon and the
acceleration entry to the transpose of H applied to udot plus the coriolis
acceleration. -/
theorem calcUDotPass2Outward_ground_parent_independent {d : ℕ}
    (H : Matrix (Fin d) S6 ℚ) (DI : Matrix (Fin d) (Fin d) ℚ)
    (G : Matrix S6 (Fin d) ℚ) (phi : SpatialMat)
    (coriolisAcceleration : SpatialVec) (epsilon : Fin d → ℚ)
    (a b : ℕ → SpatialVec) :
    RigidBodyNodeSpec.calcUDotPass2Outward H DI G phi coriolisAcceleration
        epsilon 0 a =
      RigidBodyNodeSpec.calcUDotPass2Outward H DI G phi coriolisAcceleration
        epsilon 0 b ∧
    (RigidBodyNodeSpec.calcUDotPass2Outward H DI G phi coriolisAcceleration
        epsilon 0 a).1 = DI.mulVec epsilon ∧
    (RigidBodyNodeSpec.calcUDotPass2Outward H DI G phi coriolisAcceleration
        epsilon 0 a).2 =
      H.transpose.mulVec (DI.mulVec epsilon) + coriolisAcceleration := by
  have h0 : spv 0 0 = (0 : SpatialVec) := by funext x; cases x <;> rfl
  unfold RigidBodyNodeSpec.calcUDotPass2Outward
  simp [h0, Matrix.mulVec_zero]

theorem matInvert_eq_inv {d : ℕ} {M N : Matrix (Fin d) (Fin d) ℚ}
    (h : matInvert M = some N) : N = M⁻¹ := by
  unfold matInvert at h
  split at h
  · exact absurd h (by simp)
  · rw [Option.some.injEq] at h
    rw [← h, Matrix.inv_def, Ring.inverse_eq_inv']

/-- C1: whenever the articulated-body inertia computation of a non-ground
node succeeds, the computed P is the spatial inertia Mk plus the sum over
the children of the child P premultiplied by the child tauBar term (the
identity minus G times H of the child) and shifted on both sides by the
child Phi; D is H times P times the transpose of H; DI is the inverse of D;
G is P times the transpose of H times DI; tauBar is the identity minus G
times H; and Psi is Phi times tauBar. -/
theorem calcArticulatedBodyInertiasInward_spec {d : ℕ}
    (Mk : SpatialMat) (H : Matrix (Fin d) S6 ℚ) (phi : SpatialMat)
    (childData : List ABIChild) (out : ABIOut d)
    (h : RigidBodyNodeSpec.calcArticulatedBodyInertiasInward Mk H phi childData
      = some out) :
    out.P = Mk + (childData.map
      fun c => c.phi * (c.tauBar * c.P) * c.phi.transpose).sum ∧
    out.D = H * out.P * H.transpose ∧
    out.DI = out.D⁻¹ ∧
    out.G = out.P * H.transpose * out.DI ∧
    out.tauBar = 1 - out.G * H ∧
    out.Psi = phi * out.tauBar := by
  unfold RigidBodyNodeSpec.calcArticulatedBodyInertiasInward at h
  rw [Option.map_eq_some'] at h
  obtain ⟨DI, hInv, rfl⟩ := h
  refine ⟨foldl_add_map_sum _ childData Mk, (Matrix.mul_assoc H _ _).symm,
    matInvert_eq_inv hInv, rfl, rfl, rfl⟩

theorem abiD1_det : abiD1.det = 1 := by
  rw [Matrix.det_fin_one]
  simp [abiD1, abiH1, Matrix.mul_apply, Matrix.one_apply,
    Matrix.transpose_apply, Fintype.sum_sum_type, Fin.sum_univ_succ]

theorem abi_computation_succeeds :
    RigidBodyNodeSpec.calcArticulatedBodyInertiasInward (d := 1) 1 abiH1 1 []
      = some abiOut1 := by
  have habiD : abiH1 * ((1 : SpatialMat) * abiH1.transpose) = abiD1 := rfl
  have hInv : matInvert (abiH1 * ((1 : SpatialMat) * abiH1.transpose)) = some abiDI1 := by
    simp [matInvert, habiD, abiD1_det, abiDI1, abiD1, abiH1, Matrix.mul_apply,
      Matrix.one_apply, Matrix.transpose_apply, Fintype.sum_sum_type, Fin.sum_univ_succ]
  unfold RigidBodyNodeSpec.calcArticulatedBodyInertiasInward
  simp only [List.foldl_nil]
  rw [hInv]
  rfl

/-- C1 witness: the articulated-body inertia recursion succeeds on a
concrete childless one-dof node with unit spatial inertia, and the computed
DI is the matrix inverse of the computed D. -/
theorem calcArticulatedBodyInertiasInward_spec_witness :
    RigidBodyNodeSpec.calcArticulatedBodyInertiasInward (d := 1) 1 abiH1 1 []
      = some abiOut1 ∧
    abiOut1.DI = abiOut1.D⁻¹ ∧
    abiOut1.P = 1 + (([] : List ABIChild).map
      fun c => c.phi * (c.tauBar * c.P) * c.phi.transpose).sum :=
  ⟨abi_computation_succeeds,
   (calcArticulatedBodyInertiasInward_spec 1 abiH1 1 [] abiOut1
     abi_computation_succeeds).2.2.1,
   (calcArticulatedBodyInertiasInward_spec 1 abiH1 1 [] abiOut1
     abi_computation_succeeds).1⟩

theorem quatNormalize_idem (q : Fin 4 → ℝ) :
    quatNormalize (quatNormalize q) = quatNormalize q := by
  by_cases h : quatNorm q = 0
  · have hz : quatNormalize q = fun _ => (0 : ℝ) := by
      funext i; rw [quatNormalize, h, div_zero]
    have hn : quatNorm (fun _ => (0 : ℝ)) = 0 := by
      simp [quatNorm]
    funext i
    rw [hz, quatNormalize, hn, div_zero]
  · have hnn : (0 : ℝ) ≤ ∑ j, q j ^ 2 := Finset.sum_nonneg fun j _ => sq_nonneg _
    have hs : quatNorm q ^ 2 = ∑ j, q j ^ 2 := Real.sq_sqrt hnn
    have h1 : quatNorm (quatNormalize q) = 1 := by
      unfold quatNorm quatNormalize
      have hsum : ∑ j, (q j / quatNorm q) ^ 2 = 1 := by
        simp only [div_pow]
        rw [← Finset.sum_div, ← hs, div_self (pow_ne_zero 2 h)]
      rw [hsum, Real.sqrt_one]
    funext i
    rw [quatNormalize, h1, div_one]

/-- C7: enforceQuaternionConstraints in Euler-angle mode, and for the
non-ball base class and the ground body, returns the coordinates unchanged
and reports no change; in quaternion mode the ball and free joints replace
the quaternion coordinates by themselves divided by their norm and report a
change; and applying the routine twice yields the same coordinates as
applying it once, the second renormalization producing no numerical change. -/
theorem enforceQuaternionConstraints_spec :
    (∀ q : Fin 4 → ℝ,
      RBNodeRotate3.enforceQuaternionConstraints true q = (q, false)) ∧
    (∀ q : Fin 4 → ℝ,
      RBNodeRotate3.enforceQuaternionConstraints false q = (quatNormalize q, true)) ∧
    (∀ q : (Fin 4 → ℝ) × (Fin 3 → ℝ),
      RBNodeTranslateRotate3.enforceQuaternionConstraints true q = (q, false)) ∧
    (∀ q : (Fin 4 → ℝ) × (Fin 3 → ℝ),
      RBNodeTranslateRotate3.enforceQuaternionConstraints false q
        = ((quatNormalize q.1, q.2), true)) ∧
    (∀ (Q : Type) (q : Q), RigidBodyNodeSpec.enforceQuaternionConstraints q = (q, false)) ∧
    (∀ (Q : Type) (q : Q), RBGroundBody.enforceQuaternionConstraints q = (q, false)) ∧
    (∀ (m : Bool) (q : Fin 4 → ℝ),
      (RBNodeRotate3.enforceQuaternionConstraints m
          (RBNodeRotate3.enforceQuaternionConstraints m q).1).1
        = (RBNodeRotate3.enforceQuaternionConstraints m q).1) ∧
    (∀ (m : Bool) (q : (Fin 4 → ℝ) × (Fin 3 → ℝ)),
      (RBNodeTranslateRotate3.enforceQuaternionConstraints m
          (RBNodeTranslateRotate3.enforceQuaternionConstraints m q).1).1
        = (RBNodeTranslateRotate3.enforceQuaternionConstraints m q).1) := by
  refine ⟨fun q => rfl, fun q => rfl, fun q => rfl, fun q => rfl,
    fun Q q => rfl, fun Q q => rfl, ?_, ?_⟩
  · intro m q
    cases m
    · simp only [RBNodeRotate3.enforceQuaternionConstraints, Bool.false_eq_true,
        if_false]
      exact quatNormalize_idem q
    · rfl
  · intro m q
    cases m
    · simp only [RBNodeTranslateRotate3.enforceQuaternionConstraints,
        Bool.false_eq_true, if_false]
      rw [quatNormalize_idem]
    · rfl

theorem spv_zero : spv 0 0 = (0 : SpatialVec) := by
  funext x; cases x <;> rfl

theorem mem_childrenOf {n : ℕ} {t : RBTree n} {i j : Fin (n+1)}
    (h : j ∈ childrenOf t i) : t.parent j = i ∧ j ≠ 0 := by
  have h2 := List.of_mem_filter h
  simpa using h2

theorem lt_of_mem_childrenOf {n : ℕ} {t : RBTree n} {i j : Fin (n+1)}
    (h : j ∈ childrenOf t i) : i < j := by
  obtain ⟨hp, hj⟩ := mem_childrenOf h
  have := t.parent_lt j hj
  rwa [hp] at this

/-- C3: calcAccel computes udot as nu minus the transpose of G applied to
the Phi-transpose-shifted parent acceleration, computes the node spatial
acceleration as the shifted parent acceleration plus the transpose of H
applied to udot plus the coriolis acceleration, converts udot to qdotdot
through the joint-specific calcQDotDot, and the ground spatial
acceleration at the base of the tree recursion is the zero spatial
vector. -/
theorem calcAccel_spec {d nqd : ℕ} (phi : SpatialMat) (H : Matrix (Fin d) S6 ℚ)
    (G : Matrix S6 (Fin d) ℚ) (coriolisAcceleration : SpatialVec)
    (nu : Fin d → ℚ) (parentA_GB : SpatialVec)
    (calcQDotDot : (Fin d → ℚ) → Fin nqd → ℚ) :
    (RigidBodyNodeSpec.calcAccel phi H G coriolisAcceleration nu parentA_GB
        calcQDotDot).1
      = nu - G.transpose.mulVec (phi.transpose.mulVec parentA_GB) ∧
    (RigidBodyNodeSpec.calcAccel phi H G coriolisAcceleration nu parentA_GB
        calcQDotDot).2.1
      = phi.transpose.mulVec parentA_GB
        + H.transpose.mulVec ((RigidBodyNodeSpec.calcAccel phi H G
            coriolisAcceleration nu parentA_GB calcQDotDot).1)
        + coriolisAcceleration ∧
    (RigidBodyNodeSpec.calcAccel phi H G coriolisAcceleration nu parentA_GB
        calcQDotDot).2.2
      = calcQDotDot ((RigidBodyNodeSpec.calcAccel phi H G coriolisAcceleration
          nu parentA_GB calcQDotDot).1) ∧
    (∀ (n : ℕ) (t : RBTree n) (sf : Fin (n+1) → SpatialVec),
      (treeCalcAccel t sf 0).2 = 0) := by
  refine ⟨rfl, rfl, rfl, ?_⟩
  intro n t sf
  rw [treeCalcAccel]
  simp

theorem treeCalcZ_epsilon {n : ℕ} (t : RBTree n) (sf : Fin (n+1) → SpatialVec)
    (i : Fin (n+1)) :
    (treeCalcZ t sf i).epsilon
      = t.appliedJointForce i - (t.H i).mulVec ((treeCalcZ t sf i).z) := by
  rw [treeCalcZ]
  rfl

theorem treeCalcZ_nu {n : ℕ} (t : RBTree n) (sf : Fin (n+1) → SpatialVec)
    (i : Fin (n+1)) :
    (treeCalcZ t sf i).nu = (t.DI i).mulVec ((treeCalcZ t sf i).epsilon) := by
  rw [treeCalcZ]
  rfl

theorem treeCalcZ_Gepsilon {n : ℕ} (t : RBTree n) (sf : Fin (n+1) → SpatialVec)
    (i : Fin (n+1)) :
    (treeCalcZ t sf i).Gepsilon = (t.G i).mulVec ((treeCalcZ t sf i).epsilon) := by
  rw [treeCalcZ]
  rfl

theorem treePass1_epsilon {n : ℕ} (t : RBTree n)
    (jointForces : (i : Fin (n+1)) → Fin (t.dof i) → ℚ)
    (bodyForces : Fin (n+1) → SpatialVec) (i : Fin (n+1)) (hi : i ≠ 0) :
    (treeCalcUDotPass1 t jointForces bodyForces i).epsilon
      = jointForces i
        - (t.H i).mulVec ((treeCalcUDotPass1 t jointForces bodyForces i).z) := by
  rw [treeCalcUDotPass1, if_neg hi]
  rfl

theorem treePass1_Gepsilon {n : ℕ} (t : RBTree n)
    (jointForces : (i : Fin (n+1)) → Fin (t.dof i) → ℚ)
    (bodyForces : Fin (n+1) → SpatialVec) (i : Fin (n+1)) (hi : i ≠ 0) :
    (treeCalcUDotPass1 t jointForces bodyForces i).Gepsilon
      = (t.G i).mulVec ((treeCalcUDotPass1 t jointForces bodyForces i).epsilon) := by
  rw [treeCalcUDotPass1, if_neg hi]
  rfl

theorem pass1_agrees_calcZ {n : ℕ} (t : RBTree n) :
    ∀ i : Fin (n+1), i ≠ 0 →
      (treeCalcUDotPass1 t t.appliedJointForce 0 i).z = (treeCalcZ t 0 i).z ∧
      (treeCalcUDotPass1 t t.appliedJointForce 0 i).epsilon
        = (treeCalcZ t 0 i).epsilon ∧
      (treeCalcUDotPass1 t t.appliedJointForce 0 i).Gepsilon
        = (treeCalcZ t 0 i).Gepsilon := by
  have key : ∀ m : ℕ, ∀ i : Fin (n+1), n + 1 - i.val = m → i ≠ 0 →
      (treeCalcUDotPass1 t t.appliedJointForce 0 i).z = (treeCalcZ t 0 i).z ∧
      (treeCalcUDotPass1 t t.appliedJointForce 0 i).epsilon
        = (treeCalcZ t 0 i).epsilon ∧
      (treeCalcUDotPass1 t t.appliedJointForce 0 i).Gepsilon
        = (treeCalcZ t 0 i).Gepsilon := by
    intro m
    induction m using Nat.strong_induction_on with
    | _ m ih =>
      intro i him hi
      have hz : (treeCalcUDotPass1 t t.appliedJointForce 0 i).z
          = (treeCalcZ t 0 i).z := by
        rw [treeCalcUDotPass1, treeCalcZ, if_neg hi]
        simp only [RigidBodyNodeSpec.calcUDotPass1Inward, RigidBodyNodeSpec.calcZ]
        rw [foldl_add_map_sum, foldl_add_map_sum, List.map_map, List.map_map]
        congr 1
        congr 1
        apply List.map_congr_left
        intro j hj
        have hj0 : j.1 ≠ 0 := (mem_childrenOf j.2).2
        have hlt : i < j.1 := lt_of_mem_childrenOf j.2
        have hrec := ih (n + 1 - j.1.val)
          (him ▸ Nat.sub_lt_sub_left i.isLt hlt) j.1 rfl hj0
        simp only [Function.comp_apply]
        rw [hrec.1, hrec.2.2]
      have heps : (treeCalcUDotPass1 t t.appliedJointForce 0 i).epsilon
          = (treeCalcZ t 0 i).epsilon := by
        rw [treePass1_epsilon t _ _ i hi, treeCalcZ_epsilon, hz]
      exact ⟨hz, heps, by rw [treePass1_Gepsilon t _ _ i hi, treeCalcZ_Gepsilon, heps]⟩
  exact fun i => key (n + 1 - i.val) i rfl

theorem treeAccel_agrees_pass2 {n : ℕ} (t : RBTree n) :
    ∀ i : Fin (n+1),
      treeCalcAccel t 0 i
        = treeCalcUDotPass2 t
            (fun j => (treeCalcUDotPass1 t t.appliedJointForce 0 j).epsilon) i := by
  have key : ∀ m : ℕ, ∀ i : Fin (n+1), i.val = m →
      treeCalcAccel t 0 i
        = treeCalcUDotPass2 t
            (fun j => (treeCalcUDotPass1 t t.appliedJointForce 0 j).epsilon) i := by
    intro m
    induction m using Nat.strong_induction_on with
    | _ m ih =>
      intro i him
      by_cases hi : i = 0
      · subst hi
        rw [treeCalcAccel, treeCalcUDotPass2]
        simp [spv_zero]
      · rw [treeCalcAccel, treeCalcUDotPass2, dif_neg hi, dif_neg hi]
        have hpar := ih (t.parent i).val (him ▸ t.parent_lt i hi) (t.parent i) rfl
        have heps : (treeCalcUDotPass1 t t.appliedJointForce 0 i).epsilon
            = (treeCalcZ t 0 i).epsilon := (pass1_agrees_calcZ t i hi).2.1
        have hnu : (treeCalcZ t 0 i).nu
            = (t.DI i).mulVec ((treeCalcUDotPass1 t t.appliedJointForce 0 i).epsilon) := by
          rw [treeCalcZ_nu, heps]
        simp only [RigidBodyNodeSpec.calcAccel, RigidBodyNodeSpec.calcUDotPass2Outward]
        rw [hpar, hnu]
        by_cases hp : t.parent i = 0
        · rw [hp]
          rw [treeCalcUDotPass2]
          simp [spv_zero]
        · have hpv : ¬((t.parent i).val = 0) := fun hv => hp (Fin.val_injective hv)
          simp [hpv]
  exact fun i => key i.val i rfl

/-- C4: with the Configuration and Dynamics stages realized, no applied
spatial body forces, and the same applied joint forces, the udot computed
by the cache-based calcZ and calcAccel path equals, node for node, the
udot computed by the array-based calcUDotPass1Inward and
calcUDotPass2Outward path. -/
theorem udot_cache_path_eq_array_path (n : ℕ) (t : RBTree n) (i : Fin (n+1)) :
    (treeCalcAccel t 0 i).1
      = (treeCalcUDotPass2 t
          (fun j => (treeCalcUDotPass1 t t.appliedJointForce 0 j).epsilon) i).1 :=
  congrArg Prod.fst (treeAccel_agrees_pass2 t i)

